import Mathlib

/-!
Shallow embedding of the core state of the D3D9 multiple point light demo
(main.cpp): the point-light simulation, the camera rig and its mouse-driven
state machine, the lighting-technique selection, the radius keys, and the
frame-time smoothing buffer.  Floating point literals of the source are
embedded as the exact rational values of the literals; transcendental
operations (sine, cosine, degree-to-radian conversion, quaternion axis-angle
construction, quaternion multiplication and normalization) are abstracted as
explicit function parameters, since every claim treated here is independent
of their numeric values.
-/

namespace DX9Demo

def ROOM_SIZE_X : ℚ := 256

def ROOM_SIZE_Y : ℚ := 128

def ROOM_SIZE_Z : ℚ := 256

def ROOM_SIZE_X_HALF : ℚ := ROOM_SIZE_X * (1/2)

def ROOM_SIZE_Y_HALF : ℚ := ROOM_SIZE_Y * (1/2)

def ROOM_SIZE_Z_HALF : ℚ := ROOM_SIZE_Z * (1/2)

def CAMERA_ZNEAR : ℚ := 1/100

def DOLLY_MAX : ℚ := max (max ROOM_SIZE_X ROOM_SIZE_Y) ROOM_SIZE_Z * 2

def DOLLY_MIN : ℚ := CAMERA_ZNEAR

def MOUSE_ORBIT_SPEED : ℚ := 3/10

def MOUSE_DOLLY_SPEED : ℚ := 1

def MOUSE_TRACK_SPEED : ℚ := 1/2

def MOUSE_WHEEL_DOLLY_SPEED : ℚ := 1/4

def LIGHT_OBJECT_LAUNCH_ANGLE : ℚ := 45

def LIGHT_OBJECT_RADIUS : ℚ := 2

def LIGHT_OBJECT_SPEED : ℚ := 80

def LIGHT_RADIUS_MAX : ℚ := max (max ROOM_SIZE_X ROOM_SIZE_Y) ROOM_SIZE_Z * (5/4)

def LIGHT_RADIUS_MIN : ℚ := 0

def MAX_LIGHTS_SM20 : ℕ := 2

def MAX_LIGHTS_SM30 : ℕ := 8

def MAX_SAMPLE_COUNT : ℕ := 50

/-- 3D vector with rational components (embeds D3DXVECTOR3 / float[3]). -/
structure Vec3 where
  x : ℚ
  y : ℚ
  z : ℚ
deriving DecidableEq

instance : Add Vec3 where
  add a b := ⟨a.x + b.x, a.y + b.y, a.z + b.z⟩

instance : Sub Vec3 where
  sub a b := ⟨a.x - b.x, a.y - b.y, a.z - b.z⟩

/-- Scalar multiple of a vector (embeds D3DXVECTOR3 operator*). -/
def Vec3.smul (v : Vec3) (c : ℚ) : Vec3 := ⟨v.x * c, v.y * c, v.z * c⟩

/-- 4-channel color (embeds float[4]). -/
structure Color4 where
  r : ℚ
  g : ℚ
  b : ℚ
  a : ℚ
deriving DecidableEq

/-- Quaternion with rational components (embeds D3DXQUATERNION). -/
structure Quat where
  x : ℚ
  y : ℚ
  z : ℚ
  w : ℚ
deriving DecidableEq

def quatIdentity : Quat := ⟨0, 0, 0, 1⟩

/-- Embeds struct PointLight of main.cpp. -/
structure PointLight where
  pos : Vec3
  ambient : Color4
  diffuse : Color4
  specular : Color4
  radius : ℚ
  velocity : Vec3
deriving DecidableEq

/-- Embeds PointLight::update: explicit Euler step on the position, then one
independent sign test per axis against the positive and the negative
reflection threshold, each negating that axis velocity component. -/
def PointLight.update (l : PointLight) (elapsedTimeSec : ℚ) : PointLight :=
  let px := l.pos.x + l.velocity.x * elapsedTimeSec
  let py := l.pos.y + l.velocity.y * elapsedTimeSec
  let pz := l.pos.z + l.velocity.z * elapsedTimeSec
  let vx0 := if px > ROOM_SIZE_X_HALF - LIGHT_OBJECT_RADIUS * 2 then -l.velocity.x else l.velocity.x
  let vx1 := if px < -(ROOM_SIZE_X_HALF - LIGHT_OBJECT_RADIUS * 2) then -vx0 else vx0
  let vy0 := if py > ROOM_SIZE_Y_HALF - LIGHT_OBJECT_RADIUS * 2 then -l.velocity.y else l.velocity.y
  let vy1 := if py < -(ROOM_SIZE_Y_HALF - LIGHT_OBJECT_RADIUS * 2) then -vy0 else vy0
  let vz0 := if pz > ROOM_SIZE_Z_HALF - LIGHT_OBJECT_RADIUS * 2 then -l.velocity.z else l.velocity.z
  let vz1 := if pz < -(ROOM_SIZE_Z_HALF - LIGHT_OBJECT_RADIUS * 2) then -vz0 else vz0
  { l with pos := ⟨px, py, pz⟩, velocity := ⟨vx1, vy1, vz1⟩ }

/-- Embeds PointLight::init.  The two calls of rand() divided by RAND_MAX are
the parameters u1 and u2, each ranging over [0, 1]; cosDeg and sinDeg
abstract the composite of D3DXToRadian-style degree-to-radian conversion
with cosf and sinf, applied to the launch elevation angle phi (45 degrees)
and to the random azimuth theta = 360 * u2 degrees. -/
def PointLight.init (l : PointLight) (cosDeg sinDeg : ℚ → ℚ) (u1 u2 : ℚ) : PointLight :=
  let rho := LIGHT_OBJECT_SPEED + 1/2 * (LIGHT_OBJECT_SPEED * u1)
  let phi := LIGHT_OBJECT_LAUNCH_ANGLE
  let theta := 360 * u2
  { l with velocity :=
      ⟨rho * cosDeg phi * cosDeg theta, rho * sinDeg phi, rho * cosDeg phi * sinDeg theta⟩ }

lemma reflect_axis (T p v : ℚ) (hT : 0 < T) :
    (if p < -T then -(if p > T then -v else v) else (if p > T then -v else v))
      = (if p > T ∨ p < -T then -v else v) := by
  by_cases h1 : p > T
  · have h2 : ¬ p < -T := by linarith
    simp [h1, h2]
  · by_cases h2 : p < -T
    · simp [h1, h2]
    · simp [h1, h2]

/-- C1: one PointLight::update call with timestep dt first moves each position
component by velocity * dt (explicit Euler, never clamped), then negates an
axis velocity component exactly when that axis new position exceeds
(roomHalfExtent - 2 * lightObjectRadius) on the positive side or lies below
its negation; velocity components of non-crossing axes and all other light
fields are unchanged. -/
theorem c1_update_euler_then_axis_reflection (l : PointLight) (dt : ℚ) :
    (l.update dt).pos = ⟨l.pos.x + l.velocity.x * dt,
                         l.pos.y + l.velocity.y * dt,
                         l.pos.z + l.velocity.z * dt⟩
    ∧ (l.update dt).velocity.x =
        (if l.pos.x + l.velocity.x * dt > ROOM_SIZE_X_HALF - LIGHT_OBJECT_RADIUS * 2
            ∨ l.pos.x + l.velocity.x * dt < -(ROOM_SIZE_X_HALF - LIGHT_OBJECT_RADIUS * 2)
         then -l.velocity.x else l.velocity.x)
    ∧ (l.update dt).velocity.y =
        (if l.pos.y + l.velocity.y * dt > ROOM_SIZE_Y_HALF - LIGHT_OBJECT_RADIUS * 2
            ∨ l.pos.y + l.velocity.y * dt < -(ROOM_SIZE_Y_HALF - LIGHT_OBJECT_RADIUS * 2)
         then -l.velocity.y else l.velocity.y)
    ∧ (l.update dt).velocity.z =
        (if l.pos.z + l.velocity.z * dt > ROOM_SIZE_Z_HALF - LIGHT_OBJECT_RADIUS * 2
            ∨ l.pos.z + l.velocity.z * dt < -(ROOM_SIZE_Z_HALF - LIGHT_OBJECT_RADIUS * 2)
         then -l.velocity.z else l.velocity.z)
    ∧ (l.update dt).radius = l.radius
    ∧ (l.update dt).ambient = l.ambient
    ∧ (l.update dt).diffuse = l.diffuse
    ∧ (l.update dt).specular = l.specular := by
  have hx : (0:ℚ) < ROOM_SIZE_X_HALF - LIGHT_OBJECT_RADIUS * 2 := by
    norm_num [ROOM_SIZE_X_HALF, ROOM_SIZE_X, LIGHT_OBJECT_RADIUS]
  have hy : (0:ℚ) < ROOM_SIZE_Y_HALF - LIGHT_OBJECT_RADIUS * 2 := by
    norm_num [ROOM_SIZE_Y_HALF, ROOM_SIZE_Y, LIGHT_OBJECT_RADIUS]
  have hz : (0:ℚ) < ROOM_SIZE_Z_HALF - LIGHT_OBJECT_RADIUS * 2 := by
    norm_num [ROOM_SIZE_Z_HALF, ROOM_SIZE_Z, LIGHT_OBJECT_RADIUS]
  refine ⟨rfl, ?_, ?_, ?_, rfl, rfl, rfl, rfl⟩
  · exact reflect_axis _ _ _ hx
  · exact reflect_axis _ _ _ hy
  · exact reflect_axis _ _ _ hz

/-- C2: for every draw of the random quantities, PointLight::init sets the
velocity to (rho cos(phi) cos(theta), rho sin(phi), rho cos(phi) sin(theta))
with phi = 45 degrees and theta = 360 * u2 degrees, where rho lies in
[BASE_SPEED, 1.5 * BASE_SPEED]; since sin(45 degrees) is positive the y
component of the velocity is positive, and position, colors and radius are
untouched. -/
theorem c2_init_velocity (l : PointLight) (cosDeg sinDeg : ℚ → ℚ) (u1 u2 : ℚ)
    (hu0 : 0 ≤ u1) (hu1 : u1 ≤ 1) (hsin : 0 < sinDeg LIGHT_OBJECT_LAUNCH_ANGLE) :
    (l.init cosDeg sinDeg u1 u2).velocity =
      ⟨(LIGHT_OBJECT_SPEED + 1/2 * (LIGHT_OBJECT_SPEED * u1)) * cosDeg LIGHT_OBJECT_LAUNCH_ANGLE
          * cosDeg (360 * u2),
       (LIGHT_OBJECT_SPEED + 1/2 * (LIGHT_OBJECT_SPEED * u1)) * sinDeg LIGHT_OBJECT_LAUNCH_ANGLE,
       (LIGHT_OBJECT_SPEED + 1/2 * (LIGHT_OBJECT_SPEED * u1)) * cosDeg LIGHT_OBJECT_LAUNCH_ANGLE
          * sinDeg (360 * u2)⟩
    ∧ LIGHT_OBJECT_SPEED ≤ LIGHT_OBJECT_SPEED + 1/2 * (LIGHT_OBJECT_SPEED * u1)
    ∧ LIGHT_OBJECT_SPEED + 1/2 * (LIGHT_OBJECT_SPEED * u1) ≤ (3/2) * LIGHT_OBJECT_SPEED
    ∧ 0 < (l.init cosDeg sinDeg u1 u2).velocity.y
    ∧ (l.init cosDeg sinDeg u1 u2).pos = l.pos
    ∧ (l.init cosDeg sinDeg u1 u2).ambient = l.ambient
    ∧ (l.init cosDeg sinDeg u1 u2).diffuse = l.diffuse
    ∧ (l.init cosDeg sinDeg u1 u2).specular = l.specular
    ∧ (l.init cosDeg sinDeg u1 u2).radius = l.radius := by
  have hs : (0:ℚ) ≤ LIGHT_OBJECT_SPEED * u1 := by
    have : (0:ℚ) ≤ LIGHT_OBJECT_SPEED := by norm_num [LIGHT_OBJECT_SPEED]
    exact mul_nonneg this hu0
  have hs1 : LIGHT_OBJECT_SPEED * u1 ≤ LIGHT_OBJECT_SPEED := by
    have h80 : (0:ℚ) ≤ LIGHT_OBJECT_SPEED := by norm_num [LIGHT_OBJECT_SPEED]
    calc LIGHT_OBJECT_SPEED * u1 ≤ LIGHT_OBJECT_SPEED * 1 :=
          mul_le_mul_of_nonneg_left hu1 h80
      _ = LIGHT_OBJECT_SPEED := mul_one _
  have hrho : (0:ℚ) < LIGHT_OBJECT_SPEED + 1/2 * (LIGHT_OBJECT_SPEED * u1) := by
    have : (0:ℚ) < LIGHT_OBJECT_SPEED := by norm_num [LIGHT_OBJECT_SPEED]
    linarith
  refine ⟨rfl, by linarith, by linarith, ?_, rfl, rfl, rfl, rfl, rfl⟩
  exact mul_pos hrho hsin

/-- Witness for the init theorem at a concrete draw. -/
theorem c2_init_velocity_witness :
    0 < (PointLight.init ⟨⟨0,0,0⟩, ⟨1,1,1,1⟩, ⟨1,1,1,1⟩, ⟨1,1,1,1⟩, 100, ⟨0,0,0⟩⟩
          (fun _ => 1) (fun _ => 1) 0 0).velocity.y :=
  (c2_init_velocity ⟨⟨0,0,0⟩, ⟨1,1,1,1⟩, ⟨1,1,1,1⟩, ⟨1,1,1,1⟩, 100, ⟨0,0,0⟩⟩
    (fun _ => 1) (fun _ => 1) 0 0 (by norm_num) (by norm_num) (by norm_num)).2.2.2.1

/-- The two Blinn-Phong effect variants; stands for the pointer identity of
g_pBlinnPhongEffect against g_pBlinnPhongEffectSM20 / SM30 in the source. -/
inductive ShaderModel
  | sm20
  | sm30
deriving DecidableEq

/-- Maximum light count of a tier (MAX_LIGHTS_SM20 / MAX_LIGHTS_SM30). -/
def ShaderModel.maxLights : ShaderModel → ℕ
  | .sm20 => MAX_LIGHTS_SM20
  | .sm30 => MAX_LIGHTS_SM30

/-- The technique-selection portion of the global state: the detected
capability flag g_supportsShaderModel30, the active effect
g_pBlinnPhongEffect, and the active light count g_numLights. -/
structure TechState where
  supportsSM30 : Bool
  activeEffect : ShaderModel
  numLights : ℕ
deriving DecidableEq

/-- Embeds the technique-selection part of InitApp: if shader model 3.0 is
supported, select the SM30 effect with 8 lights, otherwise the SM20 effect
with 2 lights. -/
def initAppTech (supports30 : Bool) : TechState :=
  if supports30 then
    { supportsSM30 := supports30, activeEffect := .sm30, numLights := MAX_LIGHTS_SM30 }
  else
    { supportsSM30 := supports30, activeEffect := .sm20, numLights := MAX_LIGHTS_SM20 }

/-- Embeds the WM_CHAR handler of the S key in WindowProc: only when shader
model 3.0 is supported, swap the active effect and set the light count to the
maximum of the newly selected tier. -/
def toggleShaderModel (s : TechState) : TechState :=
  if s.supportsSM30 then
    if s.activeEffect = .sm20 then
      { s with activeEffect := .sm30, numLights := MAX_LIGHTS_SM30 }
    else
      { s with activeEffect := .sm20, numLights := MAX_LIGHTS_SM20 }
  else
    s

lemma toggleShaderModel_supports (s : TechState) :
    (toggleShaderModel s).supportsSM30 = s.supportsSM30 := by
  unfold toggleShaderModel
  split_ifs <;> rfl

lemma initAppTech_supports (b : Bool) : (initAppTech b).supportsSM30 = b := by
  unfold initAppTech
  split_ifs <;> rfl

lemma iterate_toggle_supports (b : Bool) (n : ℕ) :
    (toggleShaderModel^[n] (initAppTech b)).supportsSM30 = b := by
  induction n with
  | zero => exact initAppTech_supports b
  | succ k ih =>
      rw [Function.iterate_succ_apply', toggleShaderModel_supports]
      exact ih

lemma toggle_fix_of_unsupported (s : TechState) (h : s.supportsSM30 = false) :
    toggleShaderModel s = s := by
  unfold toggleShaderModel
  rw [h]
  simp

lemma toggle_of_supported_sm20 (s : TechState) (h : s.supportsSM30 = true)
    (ha : s.activeEffect = ShaderModel.sm20) :
    toggleShaderModel s = { s with activeEffect := ShaderModel.sm30,
                                   numLights := MAX_LIGHTS_SM30 } := by
  unfold toggleShaderModel
  rw [h, ha]
  simp

lemma toggle_of_supported_sm30 (s : TechState) (h : s.supportsSM30 = true)
    (ha : s.activeEffect = ShaderModel.sm30) :
    toggleShaderModel s = { s with activeEffect := ShaderModel.sm20,
                                   numLights := MAX_LIGHTS_SM20 } := by
  unfold toggleShaderModel
  rw [h, ha]
  simp

lemma iterate_toggle_of_unsupported (n : ℕ) :
    toggleShaderModel^[n] (initAppTech false) = initAppTech false := by
  induction n with
  | zero => rfl
  | succ k ih =>
      rw [Function.iterate_succ_apply', ih]
      exact toggle_fix_of_unsupported _ (initAppTech_supports false)

/-- C3: when only shader model 2.0 is supported every state reachable by S-key
toggles has light count exactly 2 and the toggle is a no-op; when shader model
3.0 is supported the initial selection is the SM30 tier with 8 lights, and
from every reachable state one toggle switches the selected tier and sets the
light count to the maximum of the newly selected tier. -/
theorem c3_technique_selection (b : Bool) (n : ℕ) :
    (b = false →
        (toggleShaderModel^[n] (initAppTech b)).numLights = 2
        ∧ toggleShaderModel (toggleShaderModel^[n] (initAppTech b))
            = toggleShaderModel^[n] (initAppTech b))
    ∧ (b = true →
        (initAppTech b).activeEffect = ShaderModel.sm30
        ∧ (initAppTech b).numLights = 8
        ∧ (toggleShaderModel (toggleShaderModel^[n] (initAppTech b))).activeEffect
            ≠ (toggleShaderModel^[n] (initAppTech b)).activeEffect
        ∧ (toggleShaderModel (toggleShaderModel^[n] (initAppTech b))).numLights
            = (toggleShaderModel (toggleShaderModel^[n] (initAppTech b))).activeEffect.maxLights) := by
  constructor
  · intro hb
    subst hb
    rw [iterate_toggle_of_unsupported n]
    refine ⟨rfl, ?_⟩
    exact toggle_fix_of_unsupported _ (initAppTech_supports false)
  · intro hb
    subst hb
    have hs : (toggleShaderModel^[n] (initAppTech true)).supportsSM30 = true :=
      iterate_toggle_supports true n
    refine ⟨rfl, rfl, ?_, ?_⟩
    · cases h : (toggleShaderModel^[n] (initAppTech true)).activeEffect with
      | sm20 => rw [toggle_of_supported_sm20 _ hs h]; simp
      | sm30 => rw [toggle_of_supported_sm30 _ hs h]; simp
    · cases h : (toggleShaderModel^[n] (initAppTech true)).activeEffect with
      | sm20 => rw [toggle_of_supported_sm20 _ hs h]; simp [ShaderModel.maxLights]
      | sm30 => rw [toggle_of_supported_sm30 _ hs h]; simp [ShaderModel.maxLights]

/-- Witness for the technique-selection theorem at concrete inputs. -/
theorem c3_technique_selection_witness :
    (toggleShaderModel^[2] (initAppTech false)).numLights = 2
    ∧ (initAppTech true).activeEffect = ShaderModel.sm30
    ∧ (initAppTech true).numLights = 8 := by
  refine ⟨((c3_technique_selection false 2).1 rfl).1, ?_, ?_⟩
  · exact ((c3_technique_selection true 0).2 rfl).1
  · exact ((c3_technique_selection true 0).2 rfl).2.1

/-- Embeds struct Camera of main.cpp. -/
structure Camera where
  pitch : ℚ
  offset : ℚ
  xAxis : Vec3
  yAxis : Vec3
  zAxis : Vec3
  pos : Vec3
  target : Vec3
  orientation : Quat
deriving DecidableEq

/-- The static starting value of the global g_camera. -/
def g_cameraInit : Camera :=
  { pitch := 0
    offset := ROOM_SIZE_Z
    xAxis := ⟨1, 0, 0⟩
    yAxis := ⟨0, 1, 0⟩
    zAxis := ⟨0, 0, 1⟩
    pos := ⟨0, 0, 0⟩
    target := ⟨0, 0, 0⟩
    orientation := quatIdentity }

/-- The camera manipulation mode of ProcessMouseInput
(CAMERA_NONE / CAMERA_TRACK / CAMERA_DOLLY / CAMERA_ORBIT). -/
inductive CameraMode
  | none
  | track
  | dolly
  | orbit
deriving DecidableEq

/-- The function-local static state of ProcessMouseInput: the current mode,
the previous pointer position and the held-button count. -/
structure MouseState where
  cameraMode : CameraMode
  ptMousePrevX : ℤ
  ptMousePrevY : ℤ
  mouseButtonsDown : ℤ
deriving DecidableEq

def mouseStateInit : MouseState :=
  { cameraMode := .none, ptMousePrevX := 0, ptMousePrevY := 0, mouseButtonsDown := 0 }

/-- Abstraction of the transcendental D3DX helpers used by the orbit branch:
toRad embeds D3DXToRadian, rotAxis embeds D3DXQuaternionRotationAxis
(axis and angle in radians), and qMultiply embeds D3DXQuaternionMultiply
(first argument is the rotation applied first). -/
structure TrigOracle where
  toRad : ℚ → ℚ
  rotAxis : Vec3 → ℚ → Quat
  qMultiply : Quat → Quat → Quat

/-- The constant local xAxis of ProcessMouseInput: the axis of the pitch
rotation. -/
def localRightAxis : Vec3 := ⟨1, 0, 0⟩

/-- The constant local yAxis of ProcessMouseInput: the world-up axis of the
yaw rotation. -/
def worldUpAxis : Vec3 := ⟨0, 1, 0⟩

/-- Discrete pointer events delivered to ProcessMouseInput.  A button-up
event carries the button flags of wParam, namely which buttons are still
held after the release. -/
inductive MouseEvent
  | lbuttondown (x y : ℤ)
  | rbuttondown (x y : ℤ)
  | mbuttondown (x y : ℤ)
  | mousemove (x y : ℤ)
  | buttonup (lHeld rHeld mHeld : Bool)
  | mousewheel (wheelDelta : ℚ)

/-- Embeds the CAMERA_TRACK branch of WM_MOUSEMOVE. -/
def trackMove (cam : Camera) (prevX prevY x y : ℤ) : Camera :=
  let dx := ((x - prevX : ℤ) : ℚ) * MOUSE_TRACK_SPEED
  let dy := ((y - prevY : ℤ) : ℚ) * MOUSE_TRACK_SPEED
  { cam with target := cam.target - cam.xAxis.smul dx + cam.yAxis.smul dy }

/-- Embeds the CAMERA_DOLLY branch of WM_MOUSEMOVE, with its two clamps. -/
def dollyMove (cam : Camera) (prevY y : ℤ) : Camera :=
  let dy := ((prevY - y : ℤ) : ℚ) * MOUSE_DOLLY_SPEED
  let off1 := cam.offset - dy
  let off2 := if off1 > DOLLY_MAX then DOLLY_MAX else off1
  let off3 := if off2 < DOLLY_MIN then DOLLY_MIN else off2
  { cam with offset := off3 }

/-- The pitch-accumulation-and-clamp sequence of the CAMERA_ORBIT branch:
pitch += dy, then the two boundary tests that clamp the pitch and shrink the
consumed delta dy to the remainder up to the boundary.  Returns the clamped
pitch and the consumed delta. -/
def orbitClampedPitch (pitch dy0 : ℚ) : ℚ × ℚ :=
  let pitchA := pitch + dy0
  let pitchB := if pitchA > 90 then (90 : ℚ) else pitchA
  let dyB := if pitchA > 90 then 90 - (pitchA - dy0) else dy0
  let pitchC := if pitchB < -90 then (-90 : ℚ) else pitchB
  let dyC := if pitchB < -90 then -90 - (pitchB - dyB) else dyB
  (pitchC, dyC)

/-- Embeds the CAMERA_ORBIT branch of WM_MOUSEMOVE: accumulate and clamp the
pitch, then compose the yaw rotation about the world-up axis and afterwards
the pitch rotation about the local x axis, each skipped when its radian
angle is zero. -/
def orbitMove (o : TrigOracle) (cam : Camera) (prevX prevY x y : ℤ) : Camera :=
  let dx := ((prevX - x : ℤ) : ℚ) * MOUSE_ORBIT_SPEED
  let dy0 := ((prevY - y : ℤ) : ℚ) * MOUSE_ORBIT_SPEED
  let pc := orbitClampedPitch cam.pitch dy0
  let dxr := o.toRad dx
  let dyr := o.toRad pc.2
  let or1 := if dxr ≠ 0 then o.qMultiply (o.rotAxis worldUpAxis dxr) cam.orientation
             else cam.orientation
  let or2 := if dyr ≠ 0 then o.qMultiply or1 (o.rotAxis localRightAxis dyr) else or1
  { cam with pitch := pc.1, orientation := or2 }

/-- Embeds the WM_MOUSEWHEEL branch, with its two clamps. -/
def wheelDolly (cam : Camera) (wheelDelta : ℚ) : Camera :=
  let off1 := cam.offset - wheelDelta * MOUSE_WHEEL_DOLLY_SPEED
  let off2 := if off1 > DOLLY_MAX then DOLLY_MAX else off1
  let off3 := if off2 < DOLLY_MIN then DOLLY_MIN else off2
  { cam with offset := off3 }

/-- The camera change of a WM_MOUSEMOVE event, by camera mode. -/
def moveCamera (o : TrigOracle) (mode : CameraMode) (cam : Camera) (prevX prevY x y : ℤ) :
    Camera :=
  match mode with
  | .none => cam
  | .track => trackMove cam prevX prevY x y
  | .dolly => dollyMove cam prevY y
  | .orbit => orbitMove o cam prevX prevY x y

/-- Embeds ProcessMouseInput of main.cpp: the input-to-camera state machine. -/
def processMouseInput (o : TrigOracle) (s : MouseState × Camera) (e : MouseEvent) :
    MouseState × Camera :=
  match e with
  | .lbuttondown x y =>
      ({ s.1 with cameraMode := .track, mouseButtonsDown := s.1.mouseButtonsDown + 1,
                  ptMousePrevX := x, ptMousePrevY := y }, s.2)
  | .rbuttondown x y =>
      ({ s.1 with cameraMode := .orbit, mouseButtonsDown := s.1.mouseButtonsDown + 1,
                  ptMousePrevX := x, ptMousePrevY := y }, s.2)
  | .mbuttondown x y =>
      ({ s.1 with cameraMode := .dolly, mouseButtonsDown := s.1.mouseButtonsDown + 1,
                  ptMousePrevX := x, ptMousePrevY := y }, s.2)
  | .mousemove x y =>
      ({ s.1 with ptMousePrevX := x, ptMousePrevY := y },
       moveCamera o s.1.cameraMode s.2 s.1.ptMousePrevX s.1.ptMousePrevY x y)
  | .buttonup lHeld rHeld mHeld =>
      if s.1.mouseButtonsDown - 1 ≤ 0 then
        ({ s.1 with mouseButtonsDown := 0, cameraMode := .none }, s.2)
      else
        ({ s.1 with mouseButtonsDown := s.1.mouseButtonsDown - 1,
                    cameraMode :=
                      if lHeld then CameraMode.track
                      else if rHeld then CameraMode.orbit
                      else if mHeld then CameraMode.dolly
                      else s.1.cameraMode }, s.2)
  | .mousewheel wheelDelta =>
      (s.1, wheelDolly s.2 wheelDelta)

/-- Trivial instantiation of the transcendental helpers, used to evaluate the
state machine at concrete inputs. -/
def trivOracle : TrigOracle :=
  { toRad := fun q => q
    rotAxis := fun _ _ => quatIdentity
    qMultiply := fun a _ => a }

lemma dollyMove_offset_bounds (cam : Camera) (prevY y : ℤ) :
    DOLLY_MIN ≤ (dollyMove cam prevY y).offset ∧ (dollyMove cam prevY y).offset ≤ DOLLY_MAX := by
  have hlt : DOLLY_MIN ≤ DOLLY_MAX := by
    norm_num [DOLLY_MIN, DOLLY_MAX, CAMERA_ZNEAR, ROOM_SIZE_X, ROOM_SIZE_Y, ROOM_SIZE_Z]
  unfold dollyMove
  dsimp only
  split_ifs <;> constructor <;> linarith

lemma wheelDolly_offset_bounds (cam : Camera) (d : ℚ) :
    DOLLY_MIN ≤ (wheelDolly cam d).offset ∧ (wheelDolly cam d).offset ≤ DOLLY_MAX := by
  have hlt : DOLLY_MIN ≤ DOLLY_MAX := by
    norm_num [DOLLY_MIN, DOLLY_MAX, CAMERA_ZNEAR, ROOM_SIZE_X, ROOM_SIZE_Y, ROOM_SIZE_Z]
  unfold wheelDolly
  dsimp only
  split_ifs <;> constructor <;> linarith

lemma orbitClampedPitch_fst (pitch dy0 : ℚ) :
    (orbitClampedPitch pitch dy0).1 = max (-90) (min 90 (pitch + dy0)) := by
  unfold orbitClampedPitch
  dsimp only
  rw [max_def, min_def]
  split_ifs <;> linarith

lemma orbitClampedPitch_snd (pitch dy0 : ℚ) :
    (orbitClampedPitch pitch dy0).2 =
      (if pitch + dy0 > 90 then 90 - pitch
       else if pitch + dy0 < -90 then -90 - pitch else dy0) := by
  unfold orbitClampedPitch
  dsimp only
  split_ifs <;> linarith

lemma orbitMove_pitch_eq (o : TrigOracle) (cam : Camera) (prevX prevY x y : ℤ) :
    (orbitMove o cam prevX prevY x y).pitch
      = max (-90) (min 90 (cam.pitch + ((prevY - y : ℤ) : ℚ) * MOUSE_ORBIT_SPEED)) := by
  unfold orbitMove
  dsimp only
  exact orbitClampedPitch_fst _ _

lemma orbitMove_pitch_bounds (o : TrigOracle) (cam : Camera) (prevX prevY x y : ℤ) :
    -90 ≤ (orbitMove o cam prevX prevY x y).pitch
    ∧ (orbitMove o cam prevX prevY x y).pitch ≤ 90 := by
  rw [orbitMove_pitch_eq]
  constructor
  · exact le_max_left _ _
  · exact max_le (by norm_num) (min_le_left _ _)

/-- The pitch and dolly invariant of the camera. -/
def CamInv (cam : Camera) : Prop :=
  -90 ≤ cam.pitch ∧ cam.pitch ≤ 90 ∧ DOLLY_MIN ≤ cam.offset ∧ cam.offset ≤ DOLLY_MAX

lemma moveCamera_preserves_inv (o : TrigOracle) (mode : CameraMode) (cam : Camera)
    (prevX prevY x y : ℤ) (h : CamInv cam) :
    CamInv (moveCamera o mode cam prevX prevY x y) := by
  obtain ⟨h1, h2, h3, h4⟩ := h
  cases mode with
  | none => exact ⟨h1, h2, h3, h4⟩
  | track => exact ⟨h1, h2, h3, h4⟩
  | dolly =>
      obtain ⟨ha, hb⟩ := dollyMove_offset_bounds cam prevY y
      exact ⟨h1, h2, ha, hb⟩
  | orbit =>
      obtain ⟨ha, hb⟩ := orbitMove_pitch_bounds o cam prevX prevY x y
      exact ⟨ha, hb, h3, h4⟩

lemma processMouseInput_preserves_inv (o : TrigOracle) (s : MouseState × Camera)
    (e : MouseEvent) (h : CamInv s.2) : CamInv (processMouseInput o s e).2 := by
  cases e with
  | lbuttondown x y => exact h
  | rbuttondown x y => exact h
  | mbuttondown x y => exact h
  | mousemove x y =>
      exact moveCamera_preserves_inv o s.1.cameraMode s.2 s.1.ptMousePrevX s.1.ptMousePrevY x y h
  | buttonup lHeld rHeld mHeld =>
      unfold processMouseInput
      split_ifs <;> exact h
  | mousewheel d =>
      exact ⟨h.1, h.2.1, (wheelDolly_offset_bounds s.2 d).1, (wheelDolly_offset_bounds s.2 d).2⟩

lemma foldl_processMouseInput_inv (o : TrigOracle) (events : List MouseEvent)
    (s : MouseState × Camera) (h : CamInv s.2) :
    CamInv (events.foldl (processMouseInput o) s).2 := by
  induction events generalizing s with
  | nil => exact h
  | cons e rest ih =>
      exact ih _ (processMouseInput_preserves_inv o s e h)

/-- C4: for every sequence of pointer events of arbitrary magnitude and
repetition, processed from the initial camera and input-mapper state, the
camera pitch stays within [-90, 90] and the dolly offset stays within
[DOLLY_MIN, DOLLY_MAX], with both drag-based and wheel-based dolly
adjustment included in the event alphabet. -/
theorem c4_pitch_dolly_invariant (o : TrigOracle) (events : List MouseEvent) :
    -90 ≤ (events.foldl (processMouseInput o) (mouseStateInit, g_cameraInit)).2.pitch
    ∧ (events.foldl (processMouseInput o) (mouseStateInit, g_cameraInit)).2.pitch ≤ 90
    ∧ DOLLY_MIN ≤ (events.foldl (processMouseInput o) (mouseStateInit, g_cameraInit)).2.offset
    ∧ (events.foldl (processMouseInput o) (mouseStateInit, g_cameraInit)).2.offset ≤ DOLLY_MAX := by
  apply foldl_processMouseInput_inv
  refine ⟨by norm_num [g_cameraInit], by norm_num [g_cameraInit], ?_, ?_⟩
  · norm_num [g_cameraInit, DOLLY_MIN, CAMERA_ZNEAR, ROOM_SIZE_Z]
  · norm_num [g_cameraInit, DOLLY_MAX, ROOM_SIZE_X, ROOM_SIZE_Y, ROOM_SIZE_Z]

lemma orbitMove_orientation_eq (o : TrigOracle) (cam : Camera) (prevX prevY x y : ℤ) :
    (orbitMove o cam prevX prevY x y).orientation =
      (let dx := ((prevX - x : ℤ) : ℚ) * MOUSE_ORBIT_SPEED
       let dy0 := ((prevY - y : ℤ) : ℚ) * MOUSE_ORBIT_SPEED
       let dyEff := if cam.pitch + dy0 > 90 then 90 - cam.pitch
                    else if cam.pitch + dy0 < -90 then -90 - cam.pitch else dy0
       let yawed := if o.toRad dx ≠ 0
                    then o.qMultiply (o.rotAxis worldUpAxis (o.toRad dx)) cam.orientation
                    else cam.orientation
       if o.toRad dyEff ≠ 0 then o.qMultiply yawed (o.rotAxis localRightAxis (o.toRad dyEff))
       else yawed) := by
  unfold orbitMove
  dsimp only
  rw [orbitClampedPitch_snd]

/-- C5: an orbit-mode pointer-move event composes the yaw rotation about the
world-up axis first and the pitch rotation about the local right axis
second, the resulting pitch is the accumulated pitch clamped to [-90, 90],
and the angle of the pitch rotation is the remainder up to the boundary
whenever the raw delta would overshoot it, never the raw delta. -/
theorem c5_orbit_yaw_then_clamped_pitch (o : TrigOracle) (ms : MouseState) (cam : Camera)
    (x y : ℤ) (h : ms.cameraMode = CameraMode.orbit) :
    (processMouseInput o (ms, cam) (.mousemove x y)).2.pitch
      = max (-90) (min 90 (cam.pitch + ((ms.ptMousePrevY - y : ℤ) : ℚ) * MOUSE_ORBIT_SPEED))
    ∧ (processMouseInput o (ms, cam) (.mousemove x y)).2.orientation =
      (let dx := ((ms.ptMousePrevX - x : ℤ) : ℚ) * MOUSE_ORBIT_SPEED
       let dy0 := ((ms.ptMousePrevY - y : ℤ) : ℚ) * MOUSE_ORBIT_SPEED
       let dyEff := if cam.pitch + dy0 > 90 then 90 - cam.pitch
                    else if cam.pitch + dy0 < -90 then -90 - cam.pitch else dy0
       let yawed := if o.toRad dx ≠ 0
                    then o.qMultiply (o.rotAxis worldUpAxis (o.toRad dx)) cam.orientation
                    else cam.orientation
       if o.toRad dyEff ≠ 0 then o.qMultiply yawed (o.rotAxis localRightAxis (o.toRad dyEff))
       else yawed) := by
  have hred : (processMouseInput o (ms, cam) (.mousemove x y)).2
      = orbitMove o cam ms.ptMousePrevX ms.ptMousePrevY x y := by
    show moveCamera o ms.cameraMode cam ms.ptMousePrevX ms.ptMousePrevY x y = _
    rw [h]
    rfl
  rw [hred]
  exact ⟨orbitMove_pitch_eq o cam ms.ptMousePrevX ms.ptMousePrevY x y,
         orbitMove_orientation_eq o cam ms.ptMousePrevX ms.ptMousePrevY x y⟩

/-- Witness for the orbit theorem at a concrete orbit-mode move. -/
theorem c5_orbit_yaw_then_clamped_pitch_witness :
    (processMouseInput trivOracle (⟨CameraMode.orbit, 0, 0, 1⟩, g_cameraInit)
        (.mousemove 3 4)).2.pitch
      = max (-90) (min 90 (g_cameraInit.pitch + ((0 - 4 : ℤ) : ℚ) * MOUSE_ORBIT_SPEED)) :=
  (c5_orbit_yaw_then_clamped_pitch trivOracle ⟨CameraMode.orbit, 0, 0, 1⟩ g_cameraInit 3 4 rfl).1

/-- A mapper state in which both the left and the right button are held:
the right button was pressed last, so the mode is orbit. -/
def msBothHeld : MouseState :=
  { cameraMode := .orbit, ptMousePrevX := 0, ptMousePrevY := 0, mouseButtonsDown := 2 }

/-- C7 counterexample: with left and right held, releasing the RIGHT button
(the wParam flags then report only the left button still held) switches the
mapper to tracking, not orbiting, because the release handler tests the left
flag first. -/
theorem c7_counterexample_release_right_gives_track :
    (processMouseInput trivOracle (msBothHeld, g_cameraInit)
        (.buttonup true false false)).1.cameraMode = CameraMode.track
    ∧ CameraMode.track ≠ CameraMode.orbit := by
  constructor
  · decide
  · decide

/-- C7 amended: with exactly two buttons held (left and right), releasing the
left button leaves the mapper orbiting, releasing the right button leaves it
tracking (the remaining held button wins with precedence left over right),
and neither release returns the mapper to the idle mode. -/
theorem c7_amended_release_keeps_remaining_button_mode (o : TrigOracle) (ms : MouseState)
    (cam : Camera) (h : ms.mouseButtonsDown = 2) :
    (processMouseInput o (ms, cam) (.buttonup false true false)).1.cameraMode = CameraMode.orbit
    ∧ (processMouseInput o (ms, cam) (.buttonup true false false)).1.cameraMode = CameraMode.track
    ∧ (processMouseInput o (ms, cam) (.buttonup false true false)).1.cameraMode ≠ CameraMode.none
    ∧ (processMouseInput o (ms, cam) (.buttonup true false false)).1.cameraMode
        ≠ CameraMode.none := by
  have hcond : ¬ ((ms, cam).1.mouseButtonsDown - 1 ≤ 0) := by
    simp only [h]
    norm_num
  refine ⟨?_, ?_, ?_, ?_⟩ <;> simp only [processMouseInput] <;> rw [if_neg hcond] <;> simp

/-- Witness for the amended release theorem at a concrete state. -/
theorem c7_amended_release_witness :
    (processMouseInput trivOracle (msBothHeld, g_cameraInit)
        (.buttonup false true false)).1.cameraMode = CameraMode.orbit :=
  (c7_amended_release_keeps_remaining_button_mode trivOracle msBothHeld g_cameraInit rfl).1

/-- Embeds the view-basis and camera-position portion of UpdateEffects:
normalize the orientation, extract the basis columns of the rotation matrix
built from it (the D3DX row-major quaternion-to-matrix formula), and derive
the position as target + zAxis * (-offset).  normalizeQ abstracts
D3DXQuaternionNormalize. -/
def cameraRebuild (normalizeQ : Quat → Quat) (cam : Camera) : Camera :=
  let q := normalizeQ cam.orientation
  let xA : Vec3 := ⟨1 - 2 * (q.y * q.y + q.z * q.z), 2 * (q.x * q.y - q.z * q.w),
                    2 * (q.x * q.z + q.y * q.w)⟩
  let yA : Vec3 := ⟨2 * (q.x * q.y + q.z * q.w), 1 - 2 * (q.x * q.x + q.z * q.z),
                    2 * (q.y * q.z - q.x * q.w)⟩
  let zA : Vec3 := ⟨2 * (q.x * q.z - q.y * q.w), 2 * (q.y * q.z + q.x * q.w),
                    1 - 2 * (q.x * q.x + q.y * q.y)⟩
  let p := cam.target + zA.smul (-cam.offset)
  { cam with orientation := q, xAxis := xA, yAxis := yA, zAxis := zA, pos := p }

lemma Vec3.add_def (a b : Vec3) : a + b = ⟨a.x + b.x, a.y + b.y, a.z + b.z⟩ := rfl

lemma Vec3.sub_def (a b : Vec3) : a - b = ⟨a.x - b.x, a.y - b.y, a.z - b.z⟩ := rfl

/-- C6 counterexample: at offset ROOM_SIZE_Z, zero pitch, identity
orientation and target at the origin, the rebuilt camera position is
(0, 0, -ROOM_SIZE_Z): it lies on the NEGATIVE z axis, so its z component is
not positive. -/
theorem c6_counterexample_pos_on_negative_z :
    (cameraRebuild (fun q => q) g_cameraInit).pos = ⟨0, 0, -ROOM_SIZE_Z⟩
    ∧ ¬ (0 < (cameraRebuild (fun q => q) g_cameraInit).pos.z) := by
  have hp : (cameraRebuild (fun q => q) g_cameraInit).pos = ⟨0, 0, -ROOM_SIZE_Z⟩ := by
    unfold cameraRebuild g_cameraInit
    dsimp only
    simp only [quatIdentity, Vec3.smul, Vec3.add_def]
    norm_num
  refine ⟨hp, ?_⟩
  rw [hp]
  norm_num [ROOM_SIZE_Z]

/-- C6 amended: from offset = ROOM_SIZE_Z, zero pitch, identity orientation
and target (0,0,0), the per-frame rebuild places the camera along the
negative z axis at distance ROOM_SIZE_Z from the origin (the position is
(0, 0, -ROOM_SIZE_Z), whose squared norm is ROOM_SIZE_Z squared). -/
theorem c6_amended_pos_along_negative_z (normalizeQ : Quat → Quat) (cam : Camera)
    (hoff : cam.offset = ROOM_SIZE_Z) (_hpitch : cam.pitch = 0)
    (hq : cam.orientation = quatIdentity) (htgt : cam.target = ⟨0, 0, 0⟩)
    (hn : normalizeQ quatIdentity = quatIdentity) :
    (cameraRebuild normalizeQ cam).pos = ⟨0, 0, -ROOM_SIZE_Z⟩
    ∧ (cameraRebuild normalizeQ cam).pos.x ^ 2 + (cameraRebuild normalizeQ cam).pos.y ^ 2
        + (cameraRebuild normalizeQ cam).pos.z ^ 2 = ROOM_SIZE_Z ^ 2 := by
  have hp : (cameraRebuild normalizeQ cam).pos = ⟨0, 0, -ROOM_SIZE_Z⟩ := by
    unfold cameraRebuild
    dsimp only
    rw [hq, hn, htgt, hoff]
    simp only [quatIdentity, Vec3.smul, Vec3.add_def]
    norm_num
  refine ⟨hp, ?_⟩
  rw [hp]
  norm_num [ROOM_SIZE_Z]

/-- Witness for the amended camera-position theorem at the initial camera. -/
theorem c6_amended_pos_witness :
    (cameraRebuild (fun q => q) g_cameraInit).pos = ⟨0, 0, -ROOM_SIZE_Z⟩ :=
  (c6_amended_pos_along_negative_z (fun q => q) g_cameraInit rfl rfl rfl rfl rfl).1

/-- The static starting value of the global g_lights array: eight preset lights
(white, red, green, blue, yellow, cyan, magenta, cornflower blue), all at the
origin with radius 100 and zero velocity. -/
def g_lightsInit : List PointLight :=
  [ { pos := ⟨0, 0, 0⟩, ambient := ⟨1, 1, 1, 1⟩, diffuse := ⟨1, 1, 1, 1⟩,
      specular := ⟨1, 1, 1, 1⟩, radius := 100, velocity := ⟨0, 0, 0⟩ },
    { pos := ⟨0, 0, 0⟩, ambient := ⟨1, 0, 0, 1⟩, diffuse := ⟨1, 0, 0, 1⟩,
      specular := ⟨1, 0, 0, 1⟩, radius := 100, velocity := ⟨0, 0, 0⟩ },
    { pos := ⟨0, 0, 0⟩, ambient := ⟨0, 1, 0, 1⟩, diffuse := ⟨0, 1, 0, 1⟩,
      specular := ⟨0, 1, 0, 1⟩, radius := 100, velocity := ⟨0, 0, 0⟩ },
    { pos := ⟨0, 0, 0⟩, ambient := ⟨0, 0, 1, 1⟩, diffuse := ⟨0, 0, 1, 1⟩,
      specular := ⟨0, 0, 1, 1⟩, radius := 100, velocity := ⟨0, 0, 0⟩ },
    { pos := ⟨0, 0, 0⟩, ambient := ⟨1, 1, 0, 1⟩, diffuse := ⟨1, 1, 0, 1⟩,
      specular := ⟨1, 1, 0, 1⟩, radius := 100, velocity := ⟨0, 0, 0⟩ },
    { pos := ⟨0, 0, 0⟩, ambient := ⟨0, 1, 1, 1⟩, diffuse := ⟨0, 1, 1, 1⟩,
      specular := ⟨0, 1, 1, 1⟩, radius := 100, velocity := ⟨0, 0, 0⟩ },
    { pos := ⟨0, 0, 0⟩, ambient := ⟨1, 0, 1, 1⟩, diffuse := ⟨1, 0, 1, 1⟩,
      specular := ⟨1, 0, 1, 1⟩, radius := 100, velocity := ⟨0, 0, 0⟩ },
    { pos := ⟨0, 0, 0⟩, ambient := ⟨100/255, 149/255, 237/255, 1⟩,
      diffuse := ⟨100/255, 149/255, 237/255, 1⟩,
      specular := ⟨100/255, 149/255, 237/255, 1⟩, radius := 100, velocity := ⟨0, 0, 0⟩ } ]

/-- Embeds the body of the plus-key loop of WindowProc on a single light:
radius += 1, clamped down to LIGHT_RADIUS_MAX. -/
def radiusPlusStep (l : PointLight) : PointLight :=
  { l with radius := if l.radius + 1 > LIGHT_RADIUS_MAX then LIGHT_RADIUS_MAX
                     else l.radius + 1 }

/-- Embeds the body of the minus-key loop of WindowProc on a single light:
radius -= 1, clamped up to LIGHT_RADIUS_MIN. -/
def radiusMinusStep (l : PointLight) : PointLight :=
  { l with radius := if l.radius - 1 < LIGHT_RADIUS_MIN then LIGHT_RADIUS_MIN
                     else l.radius - 1 }

/-- A plus or minus radius keystroke. -/
inductive RadiusKey
  | plus
  | minus

/-- Embeds the WM_CHAR handlers of the plus and minus keys: the loop runs
over the whole g_lights array. -/
def applyRadiusKey (ls : List PointLight) (k : RadiusKey) : List PointLight :=
  match k with
  | .plus => ls.map radiusPlusStep
  | .minus => ls.map radiusMinusStep

lemma radiusPlusStep_radius (l : PointLight) :
    (radiusPlusStep l).radius = min (l.radius + 1) LIGHT_RADIUS_MAX := by
  unfold radiusPlusStep
  dsimp only
  rw [min_def]
  split_ifs <;> linarith

lemma radiusMinusStep_radius (l : PointLight) :
    (radiusMinusStep l).radius = max (l.radius - 1) LIGHT_RADIUS_MIN := by
  unfold radiusMinusStep
  dsimp only
  rw [max_def]
  split_ifs <;> linarith

/-- The radius-bounds invariant of a light list. -/
def RadiusInv (ls : List PointLight) : Prop :=
  ∀ l ∈ ls, LIGHT_RADIUS_MIN ≤ l.radius ∧ l.radius ≤ LIGHT_RADIUS_MAX

lemma applyRadiusKey_preserves_inv (ls : List PointLight) (k : RadiusKey)
    (h : RadiusInv ls) : RadiusInv (applyRadiusKey ls k) := by
  have hminmax : LIGHT_RADIUS_MIN ≤ LIGHT_RADIUS_MAX := by
    norm_num [LIGHT_RADIUS_MIN, LIGHT_RADIUS_MAX, ROOM_SIZE_X, ROOM_SIZE_Y, ROOM_SIZE_Z]
  intro l hl
  cases k with
  | plus =>
      obtain ⟨a, ha, rfl⟩ := List.mem_map.mp hl
      rw [radiusPlusStep_radius]
      obtain ⟨h1, h2⟩ := h a ha
      constructor
      · exact le_min (by linarith) hminmax
      · exact min_le_right _ _
  | minus =>
      obtain ⟨a, ha, rfl⟩ := List.mem_map.mp hl
      rw [radiusMinusStep_radius]
      obtain ⟨h1, h2⟩ := h a ha
      constructor
      · exact le_max_right _ _
      · exact max_le (by linarith) hminmax

lemma foldl_applyRadiusKey_inv (keys : List RadiusKey) (ls : List PointLight)
    (h : RadiusInv ls) : RadiusInv (keys.foldl applyRadiusKey ls) := by
  induction keys generalizing ls with
  | nil => exact h
  | cons k rest ih => exact ih _ (applyRadiusKey_preserves_inv ls k h)

/-- C8: a plus keystroke moves every light radius up by exactly one and a
minus keystroke moves it down by exactly one, in both cases silently clamped
into [LIGHT_RADIUS_MIN, LIGHT_RADIUS_MAX] (there is no rejection or error
outcome in the transition); consequently, after any sequence of plus and
minus keystrokes from the initial lights, every radius stays within
[LIGHT_RADIUS_MIN, LIGHT_RADIUS_MAX]. -/
theorem c8_radius_keys_clamped (keys : List RadiusKey) (l : PointLight)
    (hmem : l ∈ keys.foldl applyRadiusKey g_lightsInit) :
    (∀ a : PointLight, (radiusPlusStep a).radius = min (a.radius + 1) LIGHT_RADIUS_MAX)
    ∧ (∀ a : PointLight, (radiusMinusStep a).radius = max (a.radius - 1) LIGHT_RADIUS_MIN)
    ∧ LIGHT_RADIUS_MIN ≤ l.radius ∧ l.radius ≤ LIGHT_RADIUS_MAX := by
  have hinit : RadiusInv g_lightsInit := by
    intro a ha
    fin_cases ha <;> constructor <;>
      norm_num [LIGHT_RADIUS_MIN, LIGHT_RADIUS_MAX, ROOM_SIZE_X, ROOM_SIZE_Y, ROOM_SIZE_Z]
  obtain ⟨h1, h2⟩ := foldl_applyRadiusKey_inv keys g_lightsInit hinit l hmem
  exact ⟨radiusPlusStep_radius, radiusMinusStep_radius, h1, h2⟩

/-- Witness for the radius-key theorem after one plus keystroke. -/
theorem c8_radius_keys_clamped_witness :
    LIGHT_RADIUS_MIN ≤ (radiusPlusStep
        { pos := ⟨0, 0, 0⟩, ambient := ⟨1, 1, 1, 1⟩, diffuse := ⟨1, 1, 1, 1⟩,
          specular := ⟨1, 1, 1, 1⟩, radius := 100, velocity := ⟨0, 0, 0⟩ }).radius :=
  (c8_radius_keys_clamped [RadiusKey.plus]
    (radiusPlusStep
      { pos := ⟨0, 0, 0⟩, ambient := ⟨1, 1, 1, 1⟩, diffuse := ⟨1, 1, 1, 1⟩,
        specular := ⟨1, 1, 1, 1⟩, radius := 100, velocity := ⟨0, 0, 0⟩ })
    (by simp [g_lightsInit, applyRadiusKey])).2.2.1

/-- The rolling average computed at the end of GetElapsedTimeInSeconds: the
arithmetic mean of the retained samples, zero while no sample is retained. -/
def smoothedAvg (frameTimes : List ℚ) : ℚ :=
  if frameTimes.length = 0 then 0 else frameTimes.sum / frameTimes.length

/-- Embeds one call of GetElapsedTimeInSeconds as a function of the retained
sample list (newest first, the first sampleCount slots of the static buffer)
and the raw elapsed time measured this frame: a raw sample within one second
of the current smoothed average is shifted in at the front (the slot past
index 49 falls off); an outlier is discarded; the returned value is the
smoothed average of the updated samples. -/
def getElapsedStep (frameTimes : List ℚ) (elapsedTimeSec : ℚ) : List ℚ × ℚ :=
  let ft := if |elapsedTimeSec - smoothedAvg frameTimes| < 1
            then (elapsedTimeSec :: frameTimes).take MAX_SAMPLE_COUNT
            else frameTimes
  (ft, smoothedAvg ft)

/-- C9: a raw frame-time sample at absolute distance one second or more from
the current smoothed average leaves the retained samples unchanged; any
other sample is inserted as the newest entry, kept in full while fewer than
50 samples are held and evicting the oldest when 50 are already held; at
most 50 samples are ever retained, and the returned simulation timestep is
the arithmetic mean of the retained samples after the update. -/
theorem c9_frame_timer_smoothing (frameTimes : List ℚ) (e : ℚ)
    (hlen : frameTimes.length ≤ 50) :
    (1 ≤ |e - smoothedAvg frameTimes| → (getElapsedStep frameTimes e).1 = frameTimes)
    ∧ (|e - smoothedAvg frameTimes| < 1 →
        (getElapsedStep frameTimes e).1 = (e :: frameTimes).take MAX_SAMPLE_COUNT
        ∧ (frameTimes.length < 50 → (getElapsedStep frameTimes e).1 = e :: frameTimes)
        ∧ (frameTimes.length = 50 →
            (getElapsedStep frameTimes e).1 = e :: frameTimes.dropLast))
    ∧ (getElapsedStep frameTimes e).1.length ≤ 50
    ∧ (getElapsedStep frameTimes e).2 = smoothedAvg (getElapsedStep frameTimes e).1 := by
  by_cases hc : |e - smoothedAvg frameTimes| < 1
  · have hft : (getElapsedStep frameTimes e).1 = (e :: frameTimes).take MAX_SAMPLE_COUNT := by
      unfold getElapsedStep
      dsimp only
      rw [if_pos hc]
    refine ⟨fun h => absurd hc (by linarith), fun _ => ⟨hft, ?_, ?_⟩, ?_, rfl⟩
    · intro hlt
      rw [hft]
      apply List.take_of_length_le
      simp only [List.length_cons, MAX_SAMPLE_COUNT]
      omega
    · intro h50
      rw [hft]
      have h1 : (MAX_SAMPLE_COUNT : ℕ) = 49 + 1 := rfl
      rw [h1, List.take_succ_cons]
      have h2 : frameTimes.take 49 = frameTimes.dropLast := by
        rw [List.dropLast_eq_take, h50]
      rw [h2]
    · rw [hft]
      simp only [List.length_take, MAX_SAMPLE_COUNT]
      omega
  · have hft : (getElapsedStep frameTimes e).1 = frameTimes := by
      unfold getElapsedStep
      dsimp only
      rw [if_neg hc]
    refine ⟨fun _ => hft, fun h => absurd h hc, ?_, rfl⟩
    rw [hft]
    exact hlen

/-- Witness for the frame-timer theorem on an empty buffer and a small
sample. -/
theorem c9_frame_timer_smoothing_witness :
    (getElapsedStep [] (1/60)).1 = (1/60 : ℚ) :: [] :=
  ((c9_frame_timer_smoothing [] (1/60) (by norm_num)).2.1
    (by norm_num [smoothedAvg, abs_lt])).2.1 (by norm_num)

/-- Helper of the InitApp light loop: apply PointLight::init to the entries
of index below n, threading the per-light random draws; i is the running
index. -/
def initFirstAux (n : ℕ) (cosDeg sinDeg : ℚ → ℚ) (u1 u2 : ℕ → ℚ) :
    ℕ → List PointLight → List PointLight
  | _, [] => []
  | i, l :: ls =>
      (if i < n then l.init cosDeg sinDeg (u1 i) (u2 i) else l)
        :: initFirstAux n cosDeg sinDeg u1 u2 (i + 1) ls

/-- Embeds the InitApp loop that calls g_lights[i].init() for i below
g_numLights. -/
def initFirstLights (n : ℕ) (cosDeg sinDeg : ℚ → ℚ) (u1 u2 : ℕ → ℚ)
    (ls : List PointLight) : List PointLight :=
  initFirstAux n cosDeg sinDeg u1 u2 0 ls

/-- Embeds UpdateLights: update is applied to every entry of the g_lights
array (the loop bound is the full array size). -/
def updateLights (dt : ℚ) (ls : List PointLight) : List PointLight :=
  ls.map (fun l => l.update dt)

/-- The events of the program that touch the light collection: a radius
keystroke (applied to the whole array), an animation frame, and the startup
init loop over the first n lights. -/
inductive LightEvent
  | radiusKey (k : RadiusKey)
  | animate (dt : ℚ)
  | launch (n : ℕ) (cosDeg sinDeg : ℚ → ℚ) (u1 u2 : ℕ → ℚ)

/-- One program event applied to the light collection. -/
def stepLights (ls : List PointLight) : LightEvent → List PointLight
  | .radiusKey k => applyRadiusKey ls k
  | .animate dt => updateLights dt ls
  | .launch n c s u1 u2 => initFirstLights n c s u1 u2 ls

/-- The radius change of one event, as a function of the old radius alone. -/
def radiusTransform : LightEvent → ℚ → ℚ
  | .radiusKey .plus => fun r => if r + 1 > LIGHT_RADIUS_MAX then LIGHT_RADIUS_MAX else r + 1
  | .radiusKey .minus => fun r => if r - 1 < LIGHT_RADIUS_MIN then LIGHT_RADIUS_MIN else r - 1
  | .animate _ => fun r => r
  | .launch _ _ _ _ _ => fun r => r

lemma initFirstAux_radii (n : ℕ) (c s : ℚ → ℚ) (u1 u2 : ℕ → ℚ) (i : ℕ)
    (ls : List PointLight) :
    (initFirstAux n c s u1 u2 i ls).map PointLight.radius = ls.map PointLight.radius := by
  induction ls generalizing i with
  | nil => rfl
  | cons l rest ih =>
      simp only [initFirstAux, List.map_cons, ih]
      congr 1
      split_ifs <;> rfl

lemma stepLights_radii (ls : List PointLight) (ev : LightEvent) :
    (stepLights ls ev).map PointLight.radius
      = (ls.map PointLight.radius).map (radiusTransform ev) := by
  cases ev with
  | radiusKey k =>
      cases k with
      | plus =>
          simp only [stepLights, applyRadiusKey, List.map_map]
          congr 1
      | minus =>
          simp only [stepLights, applyRadiusKey, List.map_map]
          congr 1
  | animate dt =>
      simp only [stepLights, updateLights, List.map_map]
      congr 1
  | launch n c s u1 u2 =>
      simp only [stepLights, initFirstLights, radiusTransform]
      rw [initFirstAux_radii]
      simp

/-- All entries of a rational list are equal. -/
def AllEqQ (qs : List ℚ) : Prop := ∀ a ∈ qs, ∀ b ∈ qs, a = b

lemma AllEqQ_map (qs : List ℚ) (f : ℚ → ℚ) (h : AllEqQ qs) : AllEqQ (qs.map f) := by
  intro a ha b hb
  obtain ⟨a0, ha0, rfl⟩ := List.mem_map.mp ha
  obtain ⟨b0, hb0, rfl⟩ := List.mem_map.mp hb
  rw [h a0 ha0 b0 hb0]

lemma foldl_stepLights_radii_alleq (evs : List LightEvent) (ls : List PointLight)
    (h : AllEqQ (ls.map PointLight.radius)) :
    AllEqQ ((evs.foldl stepLights ls).map PointLight.radius) := by
  induction evs generalizing ls with
  | nil => exact h
  | cons ev rest ih =>
      apply ih
      rw [stepLights_radii]
      exact AllEqQ_map _ _ h

/-- C10: every light of the static collection starts with radius 100, the
per-frame update never changes a radius, the radius keys and the init loop
change every radius by the same radius-only function, and therefore after
any sequence of radius keystrokes, animation frames and init loops all
lights carry the same radius, making the radius of the first light representative
of all of them. -/
theorem c10_all_radii_equal (evs : List LightEvent) (l1 l2 : PointLight)
    (h1 : l1 ∈ evs.foldl stepLights g_lightsInit)
    (h2 : l2 ∈ evs.foldl stepLights g_lightsInit) :
    (∀ l ∈ g_lightsInit, l.radius = 100)
    ∧ (∀ (l : PointLight) (dt : ℚ), (l.update dt).radius = l.radius)
    ∧ l1.radius = l2.radius := by
  refine ⟨?_, fun l dt => rfl, ?_⟩
  · intro l hl
    fin_cases hl <;> rfl
  · have hinit : AllEqQ (g_lightsInit.map PointLight.radius) := by
      intro a ha b hb
      simp only [g_lightsInit, List.map_cons, List.map_nil, List.mem_cons,
        List.not_mem_nil, or_false] at ha hb
      rcases ha with h | h | h | h | h | h | h | h <;> rcases hb with g | g | g | g | g | g | g | g <;>
        rw [h, g]
    exact foldl_stepLights_radii_alleq evs g_lightsInit hinit l1.radius
      (List.mem_map_of_mem PointLight.radius h1) l2.radius
      (List.mem_map_of_mem PointLight.radius h2)

/-- Witness for the uniform-radius theorem on the initial collection. -/
theorem c10_all_radii_equal_witness :
    ({ pos := ⟨0, 0, 0⟩, ambient := ⟨1, 1, 1, 1⟩, diffuse := ⟨1, 1, 1, 1⟩,
       specular := ⟨1, 1, 1, 1⟩, radius := 100, velocity := ⟨0, 0, 0⟩ } : PointLight).radius
      = ({ pos := ⟨0, 0, 0⟩, ambient := ⟨1, 0, 0, 1⟩, diffuse := ⟨1, 0, 0, 1⟩,
           specular := ⟨1, 0, 0, 1⟩, radius := 100, velocity := ⟨0, 0, 0⟩ } : PointLight).radius :=
  (c10_all_radii_equal [] _ _ (by simp [g_lightsInit]) (by simp [g_lightsInit])).2.2

end DX9Demo
